import Mathlib

/- Verification of the Cadence entitlements migration
   (src/migrations/entitlements/migration.go) and of the generated
   stringer for PrimitiveAccess (src/runtime/ast/primitiveaccess_string.go). -/

/-- Entitlement identifiers, abstract: we only compare them. -/
abbrev EntitlementID := Nat

/-- Kind of an entitlement-set access: sema.Conjunction or sema.Disjunction. -/
inductive SetKind where
  | Conjunction
  | Disjunction
  deriving DecidableEq, Repr

/-- Authorization of a reference type: sema.UnauthorizedAccess, or a
sema.EntitlementSetAccess carrying a kind and an ordered entitlement set
(modelled as a list, whose Len is its length). -/
inductive Authorization where
  | Unauthorized
  | EntitlementSet (kind : SetKind) (entitlements : List EntitlementID)
  deriving DecidableEq, Repr

/-- The closed set of sema type variants that ConvertToEntitledType
dispatches on: ReferenceType, OptionalType, CapabilityType,
VariableSizedType, ConstantSizedType, DictionaryType, and every other
sema type collapsed into an opaque Leaf identified by a number.
ConstantSizedType.Size is Go int64, modelled as Int. -/
inductive Ty where
  | Reference (authorization : Authorization) (inner : Ty)
  | Optional (inner : Ty)
  | Capability (borrowType : Ty)
  | VariableArray (elem : Ty)
  | ConstantArray (elem : Ty) (size : Int)
  | Dictionary (key : Ty) (value : Ty)
  | Leaf (id : Nat)
  deriving DecidableEq, Repr

/-- The EntitlementSupportingType capability query of the sema package,
abstracted: `q t = some s` means the type asserts to
sema.EntitlementSupportingType and SupportedEntitlements() returns `s`;
`q t = none` means the type does not expose the capability. -/
abbrev EntitlementQuery := Ty → Option (List EntitlementID)

/-- The authorization that ConvertToEntitledType computes for a formerly
unauthorized reference from the migrated inner type
(migration.go lines 53-63): EntitlementSetAccess with SetKind Conjunction
and the supported entitlements when the query succeeds with a set of
positive length, UnauthorizedAccess otherwise. -/
def convertToEntitledAuth (q : EntitlementQuery) (innerType : Ty) : Authorization :=
  match q innerType with
  | some supportedEntitlements =>
      if 0 < supportedEntitlements.length then
        Authorization.EntitlementSet SetKind.Conjunction supportedEntitlements
      else
        Authorization.Unauthorized
  | none => Authorization.Unauthorized

/-- Shallow embedding of ConvertToEntitledType (migration.go lines 47-85).
The switch on t.Authorization has a case for sema.UnauthorizedAccess and a
default returning t unchanged; the trailing default of the outer switch
returns every remaining type unchanged. -/
def ConvertToEntitledType (q : EntitlementQuery) : Ty → Ty
  | Ty.Reference Authorization.Unauthorized inner =>
      let innerType := ConvertToEntitledType q inner
      Ty.Reference (convertToEntitledAuth q innerType) innerType
  | Ty.Reference (Authorization.EntitlementSet kind entitlements) inner =>
      Ty.Reference (Authorization.EntitlementSet kind entitlements) inner
  | Ty.Optional inner => Ty.Optional (ConvertToEntitledType q inner)
  | Ty.Capability borrowType => Ty.Capability (ConvertToEntitledType q borrowType)
  | Ty.VariableArray elem => Ty.VariableArray (ConvertToEntitledType q elem)
  | Ty.ConstantArray elem size => Ty.ConstantArray (ConvertToEntitledType q elem) size
  | Ty.Dictionary key value =>
      Ty.Dictionary (ConvertToEntitledType q key) (ConvertToEntitledType q value)
  | Ty.Leaf id => Ty.Leaf id

/-- A sample entitlement query used to instantiate hypotheses at concrete
inputs: Leaf 0 supports entitlements 1 and 2, Leaf 1 exposes the capability
with an empty supported set, every other type does not expose it. -/
def qDemo : EntitlementQuery
  | Ty.Leaf 0 => some [1, 2]
  | Ty.Leaf 1 => some []
  | _ => none

/-- An authorization is well formed when an EntitlementSet is never empty
(the spec invariant: empty must be represented as Unauthorized). -/
def wellFormedAuth : Authorization → Bool
  | Authorization.Unauthorized => true
  | Authorization.EntitlementSet _ entitlements => 0 < entitlements.length

/-- A type is well formed when every authorization it contains is. -/
def wellFormed : Ty → Bool
  | Ty.Reference authorization inner => wellFormedAuth authorization && wellFormed inner
  | Ty.Optional inner => wellFormed inner
  | Ty.Capability borrowType => wellFormed borrowType
  | Ty.VariableArray elem => wellFormed elem
  | Ty.ConstantArray elem _ => wellFormed elem
  | Ty.Dictionary key value => wellFormed key && wellFormed value
  | Ty.Leaf _ => true

/-- Size of a type: the number of variant nodes in its tree. -/
def sizeTy : Ty → Nat
  | Ty.Reference _ inner => sizeTy inner + 1
  | Ty.Optional inner => sizeTy inner + 1
  | Ty.Capability borrowType => sizeTy borrowType + 1
  | Ty.VariableArray elem => sizeTy elem + 1
  | Ty.ConstantArray elem _ => sizeTy elem + 1
  | Ty.Dictionary key value => sizeTy key + sizeTy value + 1
  | Ty.Leaf _ => 1

/-- Fuel-instrumented variant of ConvertToEntitledType: every recursive
call of the source function becomes a call that consumes one unit of fuel,
and exhausted fuel yields none. Used to show that the recursion of the
source descends only into strict structural subcomponents. -/
def convertToEntitledTypeFuel (q : EntitlementQuery) : Nat → Ty → Option Ty
  | 0, _ => none
  | fuel + 1, t =>
    match t with
    | Ty.Reference Authorization.Unauthorized inner =>
        match convertToEntitledTypeFuel q fuel inner with
        | some innerType => some (Ty.Reference (convertToEntitledAuth q innerType) innerType)
        | none => none
    | Ty.Reference (Authorization.EntitlementSet kind entitlements) inner =>
        some (Ty.Reference (Authorization.EntitlementSet kind entitlements) inner)
    | Ty.Optional inner =>
        match convertToEntitledTypeFuel q fuel inner with
        | some inner2 => some (Ty.Optional inner2)
        | none => none
    | Ty.Capability borrowType =>
        match convertToEntitledTypeFuel q fuel borrowType with
        | some borrowType2 => some (Ty.Capability borrowType2)
        | none => none
    | Ty.VariableArray elem =>
        match convertToEntitledTypeFuel q fuel elem with
        | some elem2 => some (Ty.VariableArray elem2)
        | none => none
    | Ty.ConstantArray elem size =>
        match convertToEntitledTypeFuel q fuel elem with
        | some elem2 => some (Ty.ConstantArray elem2 size)
        | none => none
    | Ty.Dictionary key value =>
        match convertToEntitledTypeFuel q fuel key, convertToEntitledTypeFuel q fuel value with
        | some key2, some value2 => some (Ty.Dictionary key2 value2)
        | _, _ => none
    | Ty.Leaf id => some (Ty.Leaf id)

/-- Erase every authorization in a type, keeping only the tree structure:
two types have the same shape exactly when their erasures are equal. -/
def eraseAuth : Ty → Ty
  | Ty.Reference _ inner => Ty.Reference Authorization.Unauthorized (eraseAuth inner)
  | Ty.Optional inner => Ty.Optional (eraseAuth inner)
  | Ty.Capability borrowType => Ty.Capability (eraseAuth borrowType)
  | Ty.VariableArray elem => Ty.VariableArray (eraseAuth elem)
  | Ty.ConstantArray elem size => Ty.ConstantArray (eraseAuth elem) size
  | Ty.Dictionary key value => Ty.Dictionary (eraseAuth key) (eraseAuth value)
  | Ty.Leaf id => Ty.Leaf id

/-- A reference value: a weak target SlotID, the current authorization,
and the declared static type governing the value. -/
structure RefValue where
  target : Nat
  authorization : Authorization
  staticType : Ty
  deriving DecidableEq, Repr

/-- Modelled from the spec: the Reference case of the ValueMigrator
(Interpreter.ConvertValueToEntitlements, not under src; Migrate at
migration.go lines 87-89 delegates to it passing ConvertToEntitledType).
Per the spec, a Reference value is migrated by recomputing only its
authorization via ConvertToEntitledType applied to its declared static
type, leaving the target SlotID unchanged; a declared static type that is
not a Reference type is a ValueShapeMismatch, modelled as none. -/
def migrateReferenceValue (q : EntitlementQuery) (v : RefValue) : Option RefValue :=
  match ConvertToEntitledType q v.staticType with
  | Ty.Reference authorization _ => some (RefValue.mk v.target authorization v.staticType)
  | _ => none

/-- The constant _PrimitiveAccess_name of the generated stringer. -/
def PrimitiveAccessName : String :=
  "AccessNotSpecifiedAccessNoneAccessSelfAccessContractAccessAccountAccessAllAccessPubSettableLegacy"

/-- The constant _PrimitiveAccess_index of the generated stringer. -/
def PrimitiveAccessIndex : List Nat := [0, 18, 28, 38, 52, 65, 74, 97]

/-- Shallow embedding of PrimitiveAccess.String
(primitiveaccess_string.go lines 24-29). PrimitiveAccess is an unsigned
integer type (the generated guard has no negative branch), modelled as
Nat; Go byte slicing of the ASCII name string is modelled on the
character list. -/
def PrimitiveAccessString (i : Nat) : String :=
  if PrimitiveAccessIndex.length - 1 ≤ i then
    "PrimitiveAccess(" ++ toString i ++ ")"
  else
    let lo := PrimitiveAccessIndex.getD i 0
    let hi := PrimitiveAccessIndex.getD (i + 1) 0
    String.mk ((PrimitiveAccessName.toList.drop lo).take (hi - lo))

example :
    ConvertToEntitledType qDemo (Ty.Reference Authorization.Unauthorized (Ty.Leaf 0)) =
      Ty.Reference (Authorization.EntitlementSet SetKind.Conjunction [1, 2]) (Ty.Leaf 0) := by
  decide

example :
    ConvertToEntitledType qDemo (Ty.Reference Authorization.Unauthorized (Ty.Leaf 1)) =
      Ty.Reference Authorization.Unauthorized (Ty.Leaf 1) := by
  decide

example :
    ConvertToEntitledType qDemo (Ty.Reference Authorization.Unauthorized (Ty.Leaf 7)) =
      Ty.Reference Authorization.Unauthorized (Ty.Leaf 7) := by
  decide

example : PrimitiveAccessString 0 = "AccessNotSpecified" := by decide
example : PrimitiveAccessString 3 = "AccessContract" := by decide
example : PrimitiveAccessString 6 = "AccessPubSettableLegacy" := by decide
example : PrimitiveAccessString 9 = "PrimitiveAccess(9)" := by decide

/-- Every authorization produced by convertToEntitledAuth is either
Unauthorized or a conjunction of a set of positive length. -/
theorem convertToEntitledAuth_dichotomy (q : EntitlementQuery) (t : Ty) :
    convertToEntitledAuth q t = Authorization.Unauthorized ∨
      ∃ es, convertToEntitledAuth q t = Authorization.EntitlementSet SetKind.Conjunction es ∧
        0 < es.length := by
  unfold convertToEntitledAuth
  cases hq : q t with
  | none => exact Or.inl rfl
  | some es =>
      by_cases hlen : 0 < es.length
      · exact Or.inr ⟨es, by simp [hlen], hlen⟩
      · exact Or.inl (by simp [hlen])

/-- Unfolding lemma for the Unauthorized-reference case. -/
theorem convert_unauth_ref_eq (q : EntitlementQuery) (inner : Ty) :
    ConvertToEntitledType q (Ty.Reference Authorization.Unauthorized inner) =
      Ty.Reference (convertToEntitledAuth q (ConvertToEntitledType q inner))
        (ConvertToEntitledType q inner) := rfl

/-- Unfolding lemma for the already-authorized reference case. -/
theorem convert_auth_ref_eq (q : EntitlementQuery) (kind : SetKind)
    (es : List EntitlementID) (inner : Ty) :
    ConvertToEntitledType q (Ty.Reference (Authorization.EntitlementSet kind es) inner) =
      Ty.Reference (Authorization.EntitlementSet kind es) inner := rfl

/-- Claim C1: migrating Reference{Unauthorized, inner} recursively migrates
inner and sets the authorization to EntitlementSet{Conjunction, S} exactly
when the migrated inner type answers the SupportedEntitlements query with a
non-empty set S, and to Unauthorized when the query answers with an empty
set or the type does not expose the capability at all. -/
theorem convertToEntitledType_unauthorized_reference (q : EntitlementQuery) (inner : Ty) :
    (∀ s, q (ConvertToEntitledType q inner) = some s → 0 < s.length →
      ConvertToEntitledType q (Ty.Reference Authorization.Unauthorized inner) =
        Ty.Reference (Authorization.EntitlementSet SetKind.Conjunction s)
          (ConvertToEntitledType q inner)) ∧
    (q (ConvertToEntitledType q inner) = none →
      ConvertToEntitledType q (Ty.Reference Authorization.Unauthorized inner) =
        Ty.Reference Authorization.Unauthorized (ConvertToEntitledType q inner)) ∧
    (∀ s, q (ConvertToEntitledType q inner) = some s → s.length = 0 →
      ConvertToEntitledType q (Ty.Reference Authorization.Unauthorized inner) =
        Ty.Reference Authorization.Unauthorized (ConvertToEntitledType q inner)) := by
  refine ⟨?_, ?_, ?_⟩
  · intro s hs hlen
    rw [convert_unauth_ref_eq]
    unfold convertToEntitledAuth
    rw [hs]
    simp [hlen]
  · intro hnone
    rw [convert_unauth_ref_eq]
    unfold convertToEntitledAuth
    rw [hnone]
  · intro s hs hlen
    rw [convert_unauth_ref_eq]
    unfold convertToEntitledAuth
    rw [hs]
    simp [hlen]

/-- Witness for C1 at the sample query: Leaf 0 supports entitlements 1, 2. -/
theorem convertToEntitledType_unauthorized_reference_witness :
    qDemo (ConvertToEntitledType qDemo (Ty.Leaf 0)) = some [1, 2] ∧
    ConvertToEntitledType qDemo (Ty.Reference Authorization.Unauthorized (Ty.Leaf 0)) =
      Ty.Reference (Authorization.EntitlementSet SetKind.Conjunction [1, 2]) (Ty.Leaf 0) :=
  ⟨by decide,
    (convertToEntitledType_unauthorized_reference qDemo (Ty.Leaf 0)).1 [1, 2]
      (by decide) (by decide)⟩

/-- Claim C2: a reference that is already authorized with an EntitlementSet
is returned unchanged, with the inner type untouched and not recursed into,
whatever the query says about it. -/
theorem convertToEntitledType_authorized_reference_fixed (q : EntitlementQuery)
    (kind : SetKind) (es : List EntitlementID) (inner : Ty) :
    ConvertToEntitledType q (Ty.Reference (Authorization.EntitlementSet kind es) inner) =
      Ty.Reference (Authorization.EntitlementSet kind es) inner := rfl

/-- Claim C3: ConvertToEntitledType is idempotent for any fixed
SupportedEntitlements query. -/
theorem convertToEntitledType_idempotent (q : EntitlementQuery) (t : Ty) :
    ConvertToEntitledType q (ConvertToEntitledType q t) = ConvertToEntitledType q t := by
  induction t with
  | Reference auth inner ih =>
      cases auth with
      | Unauthorized =>
          rw [convert_unauth_ref_eq]
          rcases convertToEntitledAuth_dichotomy q (ConvertToEntitledType q inner) with
            h | ⟨es, h, _⟩
          · rw [h, convert_unauth_ref_eq, ih, h]
          · rw [h, convert_auth_ref_eq]
      | EntitlementSet kind es => rw [convert_auth_ref_eq, convert_auth_ref_eq]
  | Optional inner ih => simp only [ConvertToEntitledType]; rw [ih]
  | Capability borrowType ih => simp only [ConvertToEntitledType]; rw [ih]
  | VariableArray elem ih => simp only [ConvertToEntitledType]; rw [ih]
  | ConstantArray elem size ih => simp only [ConvertToEntitledType]; rw [ih]
  | Dictionary key value ihk ihv => simp only [ConvertToEntitledType]; rw [ihk, ihv]
  | Leaf id => rfl

/-- The authorization computed for a formerly unauthorized reference is
always well formed. -/
theorem wellFormedAuth_convertToEntitledAuth (q : EntitlementQuery) (t : Ty) :
    wellFormedAuth (convertToEntitledAuth q t) = true := by
  rcases convertToEntitledAuth_dichotomy q t with h | ⟨es, h, hlen⟩
  · simp [h, wellFormedAuth]
  · simp [h, wellFormedAuth, hlen]

/-- ConvertToEntitledType preserves well-formedness of types. -/
theorem wellFormed_convertToEntitledType (q : EntitlementQuery) (t : Ty)
    (h : wellFormed t = true) : wellFormed (ConvertToEntitledType q t) = true := by
  induction t with
  | Reference auth inner ih =>
      cases auth with
      | Unauthorized =>
          rw [convert_unauth_ref_eq]
          simp only [wellFormed, wellFormedAuth, Bool.true_and] at h
          simp only [wellFormed, Bool.and_eq_true]
          exact ⟨wellFormedAuth_convertToEntitledAuth q _, ih h⟩
      | EntitlementSet kind es => rw [convert_auth_ref_eq]; exact h
  | Optional inner ih =>
      simp only [ConvertToEntitledType, wellFormed] at h ⊢; exact ih h
  | Capability borrowType ih =>
      simp only [ConvertToEntitledType, wellFormed] at h ⊢; exact ih h
  | VariableArray elem ih =>
      simp only [ConvertToEntitledType, wellFormed] at h ⊢; exact ih h
  | ConstantArray elem size ih =>
      simp only [ConvertToEntitledType, wellFormed] at h ⊢; exact ih h
  | Dictionary key value ihk ihv =>
      simp only [ConvertToEntitledType, wellFormed, Bool.and_eq_true] at h ⊢
      exact ⟨ihk h.1, ihv h.2⟩
  | Leaf id => exact h

/-- Claim C4: every EntitlementSet that ConvertToEntitledType newly
constructs is non-empty — the freshly computed authorization is either
Unauthorized or a conjunction set of positive length — and consequently the
function preserves the invariant that no EntitlementSet in a type is empty. -/
theorem convertToEntitledType_no_empty_entitlement_set (q : EntitlementQuery) (t : Ty)
    (h : wellFormed t = true) :
    (convertToEntitledAuth q t = Authorization.Unauthorized ∨
      ∃ es, convertToEntitledAuth q t = Authorization.EntitlementSet SetKind.Conjunction es ∧
        0 < es.length) ∧
    wellFormed (ConvertToEntitledType q t) = true :=
  ⟨convertToEntitledAuth_dichotomy q t, wellFormed_convertToEntitledType q t h⟩

/-- Witness for C4 at the sample query and a nested reference type. -/
theorem convertToEntitledType_no_empty_entitlement_set_witness :
    wellFormed (ConvertToEntitledType qDemo
      (Ty.Optional (Ty.Reference Authorization.Unauthorized (Ty.Leaf 0)))) = true :=
  (convertToEntitledType_no_empty_entitlement_set qDemo
    (Ty.Optional (Ty.Reference Authorization.Unauthorized (Ty.Leaf 0))) (by decide)).2

/-- Claim C5: ConvertToEntitledType is a structural homomorphism on the
container variants: Optional, Capability, VariableArray, ConstantArray
(size preserved) and Dictionary are rebuilt with their component types
migrated recursively. -/
theorem convertToEntitledType_container_homomorphism (q : EntitlementQuery)
    (inner borrowType elem key value : Ty) (size : Int) :
    ConvertToEntitledType q (Ty.Optional inner) =
      Ty.Optional (ConvertToEntitledType q inner) ∧
    ConvertToEntitledType q (Ty.Capability borrowType) =
      Ty.Capability (ConvertToEntitledType q borrowType) ∧
    ConvertToEntitledType q (Ty.VariableArray elem) =
      Ty.VariableArray (ConvertToEntitledType q elem) ∧
    ConvertToEntitledType q (Ty.ConstantArray elem size) =
      Ty.ConstantArray (ConvertToEntitledType q elem) size ∧
    ConvertToEntitledType q (Ty.Dictionary key value) =
      Ty.Dictionary (ConvertToEntitledType q key) (ConvertToEntitledType q value) :=
  ⟨rfl, rfl, rfl, rfl, rfl⟩

/-- Claim C6: every Leaf type is returned unchanged. -/
theorem convertToEntitledType_leaf_identity (q : EntitlementQuery) (id : Nat) :
    ConvertToEntitledType q (Ty.Leaf id) = Ty.Leaf id := rfl

/-- Every type has positive size. -/
theorem sizeTy_pos (t : Ty) : 0 < sizeTy t := by
  cases t <;> simp [sizeTy]

/-- Claim C7: ConvertToEntitledType is total and terminating — the
fuel-instrumented variant, which descends only into strict structural
subcomponents and spends one unit of fuel per recursive call, already
succeeds with any fuel bounded below by the size of the type, and returns
exactly what the recursive function returns. -/
theorem convertToEntitledType_total_terminating (q : EntitlementQuery) (t : Ty) (fuel : Nat)
    (h : sizeTy t ≤ fuel) :
    convertToEntitledTypeFuel q fuel t = some (ConvertToEntitledType q t) := by
  induction t generalizing fuel with
  | Reference auth inner ih =>
      cases fuel with
      | zero => exact absurd (Nat.le_trans (sizeTy_pos _) h) (Nat.not_succ_le_zero 0)
      | succ fuel =>
          cases auth with
          | Unauthorized =>
              have hi : sizeTy inner ≤ fuel := by simp only [sizeTy] at h; omega
              simp only [convertToEntitledTypeFuel]
              rw [ih fuel hi, convert_unauth_ref_eq]
          | EntitlementSet kind es =>
              simp only [convertToEntitledTypeFuel]
              rw [convert_auth_ref_eq]
  | Optional inner ih =>
      cases fuel with
      | zero => exact absurd (Nat.le_trans (sizeTy_pos _) h) (Nat.not_succ_le_zero 0)
      | succ fuel =>
          have hi : sizeTy inner ≤ fuel := by simp only [sizeTy] at h; omega
          simp only [convertToEntitledTypeFuel, ConvertToEntitledType]
          rw [ih fuel hi]
  | Capability borrowType ih =>
      cases fuel with
      | zero => exact absurd (Nat.le_trans (sizeTy_pos _) h) (Nat.not_succ_le_zero 0)
      | succ fuel =>
          have hi : sizeTy borrowType ≤ fuel := by simp only [sizeTy] at h; omega
          simp only [convertToEntitledTypeFuel, ConvertToEntitledType]
          rw [ih fuel hi]
  | VariableArray elem ih =>
      cases fuel with
      | zero => exact absurd (Nat.le_trans (sizeTy_pos _) h) (Nat.not_succ_le_zero 0)
      | succ fuel =>
          have hi : sizeTy elem ≤ fuel := by simp only [sizeTy] at h; omega
          simp only [convertToEntitledTypeFuel, ConvertToEntitledType]
          rw [ih fuel hi]
  | ConstantArray elem size ih =>
      cases fuel with
      | zero => exact absurd (Nat.le_trans (sizeTy_pos _) h) (Nat.not_succ_le_zero 0)
      | succ fuel =>
          have hi : sizeTy elem ≤ fuel := by simp only [sizeTy] at h; omega
          simp only [convertToEntitledTypeFuel, ConvertToEntitledType]
          rw [ih fuel hi]
  | Dictionary key value ihk ihv =>
      cases fuel with
      | zero => exact absurd (Nat.le_trans (sizeTy_pos _) h) (Nat.not_succ_le_zero 0)
      | succ fuel =>
          have hk : sizeTy key ≤ fuel := by
            have := sizeTy_pos value; simp only [sizeTy] at h; omega
          have hv : sizeTy value ≤ fuel := by
            have := sizeTy_pos key; simp only [sizeTy] at h; omega
          simp only [convertToEntitledTypeFuel, ConvertToEntitledType]
          rw [ihk fuel hk, ihv fuel hv]
  | Leaf id =>
      cases fuel with
      | zero => exact absurd (Nat.le_trans (sizeTy_pos _) h) (Nat.not_succ_le_zero 0)
      | succ fuel => rfl

/-- Witness for C7: fuel equal to the size of a small type suffices. -/
theorem convertToEntitledType_total_terminating_witness :
    convertToEntitledTypeFuel qDemo 2 (Ty.Reference Authorization.Unauthorized (Ty.Leaf 0)) =
      some (ConvertToEntitledType qDemo
        (Ty.Reference Authorization.Unauthorized (Ty.Leaf 0))) :=
  convertToEntitledType_total_terminating qDemo
    (Ty.Reference Authorization.Unauthorized (Ty.Leaf 0)) 2 (by decide)

/-- Claim C8: when the ValueMigrator migrates a Reference value, only the
authorization is recomputed — it is read off ConvertToEntitledType applied
to the declared static type — while the target SlotID (and the declared
type itself) is left unchanged. -/
theorem migrateReferenceValue_frame (q : EntitlementQuery) (v v2 : RefValue)
    (h : migrateReferenceValue q v = some v2) :
    v2.target = v.target ∧ v2.staticType = v.staticType ∧
    ∃ inner, ConvertToEntitledType q v.staticType = Ty.Reference v2.authorization inner := by
  unfold migrateReferenceValue at h
  split at h
  · rename_i a inner hc
    cases h
    exact ⟨rfl, rfl, inner, hc⟩
  · exact Option.noConfusion h

/-- Witness for C8 at the sample query: the target SlotID 5 and the
declared type survive, the authorization becomes the conjunction set. -/
theorem migrateReferenceValue_frame_witness :
    (RefValue.mk 5 (Authorization.EntitlementSet SetKind.Conjunction [1, 2])
        (Ty.Reference Authorization.Unauthorized (Ty.Leaf 0))).target =
      (RefValue.mk 5 Authorization.Unauthorized
        (Ty.Reference Authorization.Unauthorized (Ty.Leaf 0))).target ∧
    (RefValue.mk 5 (Authorization.EntitlementSet SetKind.Conjunction [1, 2])
        (Ty.Reference Authorization.Unauthorized (Ty.Leaf 0))).staticType =
      (RefValue.mk 5 Authorization.Unauthorized
        (Ty.Reference Authorization.Unauthorized (Ty.Leaf 0))).staticType ∧
    ∃ inner,
      ConvertToEntitledType qDemo
          (RefValue.mk 5 Authorization.Unauthorized
            (Ty.Reference Authorization.Unauthorized (Ty.Leaf 0))).staticType =
        Ty.Reference
          (RefValue.mk 5 (Authorization.EntitlementSet SetKind.Conjunction [1, 2])
            (Ty.Reference Authorization.Unauthorized (Ty.Leaf 0))).authorization
          inner :=
  migrateReferenceValue_frame qDemo
    (RefValue.mk 5 Authorization.Unauthorized
      (Ty.Reference Authorization.Unauthorized (Ty.Leaf 0)))
    (RefValue.mk 5 (Authorization.EntitlementSet SetKind.Conjunction [1, 2])
      (Ty.Reference Authorization.Unauthorized (Ty.Leaf 0)))
    (by decide)

/-- Claim C9: ConvertToEntitledType preserves the tree structure of a type
at every depth — erasing all authorizations from the output gives the same
tree as erasing them from the input, so only authorization fields ever
change and every variant maps to the same variant. -/
theorem convertToEntitledType_preserves_shape (q : EntitlementQuery) (t : Ty) :
    eraseAuth (ConvertToEntitledType q t) = eraseAuth t := by
  induction t with
  | Reference auth inner ih =>
      cases auth with
      | Unauthorized =>
          rw [convert_unauth_ref_eq]
          simp only [eraseAuth]
          rw [ih]
      | EntitlementSet kind es => rw [convert_auth_ref_eq]
  | Optional inner ih => simp only [ConvertToEntitledType, eraseAuth]; rw [ih]
  | Capability borrowType ih => simp only [ConvertToEntitledType, eraseAuth]; rw [ih]
  | VariableArray elem ih => simp only [ConvertToEntitledType, eraseAuth]; rw [ih]
  | ConstantArray elem size ih => simp only [ConvertToEntitledType, eraseAuth]; rw [ih]
  | Dictionary key value ihk ihv =>
      simp only [ConvertToEntitledType, eraseAuth]; rw [ihk, ihv]
  | Leaf id => rfl

/-- Claim C10: PrimitiveAccess.String returns the seven constant names for
values 0 through 6 and the fallback rendering for every value of 7 or
more, never indexing out of bounds. -/
theorem primitiveAccessString_total (i : Nat) :
    (PrimitiveAccessString 0 = "AccessNotSpecified" ∧
     PrimitiveAccessString 1 = "AccessNone" ∧
     PrimitiveAccessString 2 = "AccessSelf" ∧
     PrimitiveAccessString 3 = "AccessContract" ∧
     PrimitiveAccessString 4 = "AccessAccount" ∧
     PrimitiveAccessString 5 = "AccessAll" ∧
     PrimitiveAccessString 6 = "AccessPubSettableLegacy") ∧
    (7 ≤ i → PrimitiveAccessString i = "PrimitiveAccess(" ++ toString i ++ ")") := by
  constructor
  · exact ⟨by decide, by decide, by decide, by decide, by decide, by decide, by decide⟩
  · intro h
    have hc : PrimitiveAccessIndex.length - 1 ≤ i := by
      simp only [PrimitiveAccessIndex, List.length]
      omega
    unfold PrimitiveAccessString
    rw [if_pos hc]

/-- Witness for C10 at the out-of-range value 9. -/
theorem primitiveAccessString_total_witness :
    PrimitiveAccessString 9 = "PrimitiveAccess(" ++ toString 9 ++ ")" :=
  (primitiveAccessString_total 9).2 (by decide)
